import Mathlib

/-!
Verification of the dbms repository's query layer.

Strings are modelled as lists of Unicode code points (`List Nat`), matching
Python's view of `str` as a sequence of code points.  Each definition below
embeds one function of the source; fallible Python code (raising
`TypeError` / `ValueError`) is embedded as `Except`.
-/

/-- A Python string, as its list of code points. -/
abbrev Str := List Nat

/-- Code-point list of a Lean string literal (notation helper for concrete
inputs; 32 = space, 44 = comma, 65-90 = A-Z, 97-122 = a-z). -/
def str (s : String) : Str := s.toList.map Char.toNat

/-- A Python exception value: the constructor is the exception class, the
field its message. -/
inductive PyErr where
  | typeError (msg : Str)
  | valueError (msg : Str)
  deriving DecidableEq, Repr

/-- Models Python `str.lower` on one code point.  Python's `lower` is the
identity outside cased letters; the ASCII range (the only range the claims
exercise) is mapped exactly: `A`-`Z` (65-90) shift by 32 to `a`-`z`. -/
def pyLowerCh (c : Nat) : Nat := if 65 ≤ c ∧ c ≤ 90 then c + 32 else c

/-- Models Python `str.lower` applied to a whole string. -/
def pyLower (s : Str) : Str := s.map pyLowerCh

/-- The code points Python `str.strip()` removes (ASCII whitespace:
space, tab, LF, CR, VT, FF). -/
def isPyWS (c : Nat) : Bool := c == 32 || c == 9 || c == 10 || c == 13 || c == 11 || c == 12

/-- Leading-whitespace removal (the left half of Python `str.strip()`). -/
def lstrip (s : Str) : Str := s.dropWhile isPyWS

/-- Trailing-whitespace removal (the right half of Python `str.strip()`). -/
def rstrip (s : Str) : Str := (s.reverse.dropWhile isPyWS).reverse

/-- Models Python `str.strip()`. -/
def pyStrip (s : Str) : Str := rstrip (lstrip s)

/-- Does `s` start with `pat`?  (Used to model Python substring search.) -/
def startsWith : Str → Str → Bool
  | [], _ => true
  | _ :: _, [] => false
  | p :: ps, c :: cs => p == c && startsWith ps cs

/-- Models Python's `pat in s` substring test. -/
def containsSub (pat : Str) : Str → Bool
  | [] => startsWith pat []
  | c :: t => startsWith pat (c :: t) || containsSub pat t

/-- Models Python's `s.find(pat)` restricted to the case where `pat`
occurs in `s` (the only way the source uses it, after an `in` check):
index of the first occurrence. -/
def findSub (pat : Str) : Str → Nat
  | [] => 0
  | c :: t => if startsWith pat (c :: t) then 0 else findSub pat t + 1

/-- Models Python `s.split(",")`: splits at every comma (code point 44),
never collapsing empty chunks; `"".split(",") = [""]`. -/
def splitComma : Str → List Str
  | [] => [[]]
  | c :: rest =>
    if c = 44 then [] :: splitComma rest
    else
      match splitComma rest with
      | [] => [[c]]
      | h :: t => (c :: h) :: t

/-- Not the space code point (Bool predicate for `takeWhile`). -/
def notSpace (c : Nat) : Bool := !(c == 32)

/-- Models Python `entry.split(" ")[0]`: the part before the first space. -/
def firstTokenOf (s : Str) : Str := s.takeWhile notSpace

/-- Embeds the accumulation loop of `get_selected_columns`
(src/sql_helper.py): append each entry, but on the first entry containing
a space append only its first space-delimited token and stop. -/
def collectColumns : List Str → List Str
  | [] => []
  | e :: rest =>
    if 32 ∈ e then [firstTokenOf e]
    else e :: collectColumns rest

/-- Embeds `get_selected_columns` (src/sql_helper.py): lowercase the whole
command, require the substring `select` (else `ValueError("Not a select
command.")`), take the text after the first occurrence offset by 6, strip
it, split on commas, strip each entry, then run the accumulation loop. -/
def get_selected_columns (sql : Str) : Except PyErr (List Str) :=
  let sqlL := pyLower sql
  if containsSub (str "select") sqlL then
    let i := findSub (str "select") sqlL + 6
    let s2 := pyStrip (sqlL.drop i)
    let splitted := (splitComma s2).map pyStrip
    Except.ok (collectColumns splitted)
  else Except.error (PyErr.valueError (str "Not a select command."))

/-- A Python runtime value as stored inside a query parameter list
(`param: Any` in the source); `int` stands for any non-string element. -/
inductive PyVal where
  | str (s : Str)
  | int (n : Int)
  deriving DecidableEq, Repr

/-- The dynamically-typed `param: Any` slot of a `Query`
(src/databases/database.py): a Python string, a Python list, or some
other non-list non-string value (`vnone`). -/
inductive PyParam where
  | vstr (s : Str)
  | vlist (xs : List PyVal)
  | vnone
  deriving DecidableEq, Repr

/-- Embeds the enum `QueryOp` (src/databases/database.py). -/
inductive QueryOp where
  | SELECT
  | WHERE
  deriving DecidableEq, Repr

/-- Embeds the class `Query` (src/databases/database.py): table reference
(carried as the table's name, the only table attribute the resolver
reads), operation kind, parameter, optional child.  Nodes are immutable
by construction. -/
inductive Query where
  | mk (table : Str) (op : QueryOp) (param : PyParam) (child : Option Query)

/-- The `table` property of `Query` (as its name). -/
def Query.table : Query → Str
  | .mk t _ _ _ => t

/-- The `op` property of `Query`. -/
def Query.op : Query → QueryOp
  | .mk _ o _ _ => o

/-- The `param` property of `Query`. -/
def Query.param : Query → PyParam
  | .mk _ _ p _ => p

/-- The `child` property of `Query`. -/
def Query.child : Query → Option Query
  | .mk _ _ _ c => c

/-- Models Python `",".join(query.param)` inside the resolver's SELECT
branch: concatenates string items with commas, raising `TypeError` at the
first non-string item; `",".join([]) = ""`. -/
def joinComma : List PyVal → Except PyErr Str
  | [] => Except.ok []
  | [PyVal.str s] => Except.ok s
  | PyVal.str s :: v :: rest =>
    (joinComma (v :: rest)).map (fun r => s ++ 44 :: r)
  | _ => Except.error (PyErr.typeError (str "sequence item: expected str instance"))

/-- Embeds `SqliteResolver.resolve` (src/databases/sqlite.py).  SELECT:
param must be a list (else `TypeError`), node must have no child (else
`ValueError`), emits `SELECT <join> FROM <table>`.  WHERE: param must be
a string (else `TypeError`), child must exist (else `ValueError`) and its
op must be `SELECT` (else `ValueError`); emits the recursively resolved
child followed by ` WHERE <param>`. -/
def SqliteResolver.resolve : Query → Except PyErr Str
  | Query.mk tname op param child =>
    match op with
    | QueryOp.SELECT =>
      match param with
      | PyParam.vlist xs =>
        match child with
        | some _ => Except.error (PyErr.valueError (str "Select query can not have a child."))
        | none =>
          (joinComma xs).map (fun cols => str "SELECT " ++ cols ++ str " FROM " ++ tname)
      | _ => Except.error (PyErr.typeError (str "Param for select query has to be of type list."))
    | QueryOp.WHERE =>
      match param with
      | PyParam.vstr p =>
        match child with
        | none => Except.error (PyErr.valueError (str "Child for where query can not be None."))
        | some c =>
          if c.op = QueryOp.SELECT then
            (SqliteResolver.resolve c).map (fun s => s ++ str " WHERE " ++ p)
          else Except.error (PyErr.valueError (str "Child query has to have QueryOp = SELECT."))
      | _ => Except.error (PyErr.typeError (str "Param for where query has to be of type str."))

/-- Embeds `Query.resolve` (src/databases/database.py): delegates to the
resolver held by the owning database, which for the running program is
the `SqliteResolver`. -/
def Query.resolve (q : Query) : Except PyErr Str := SqliteResolver.resolve q

/-- Embeds the class `Table` (src/databases/database.py); `tableColumns`
carries the result the storage adapter's `get_columns()` would return
(catalog enumeration), which `select` uses to expand the wildcard. -/
structure Table where
  name : Str
  tableColumns : List Str

/-- Embeds `Table.select` (src/databases/database.py): if `columns` is the
literal string `"*"` it is replaced by the table's full column list, then
a `SELECT` query with no child is created. -/
def Table.select (t : Table) (columns : PyParam) : Query :=
  let cols :=
    if columns = PyParam.vstr (str "*") then PyParam.vlist (t.tableColumns.map PyVal.str)
    else columns
  Query.mk t.name QueryOp.SELECT cols Option.none

/-- Embeds a call `q.where(filters)` in the running program.  The class
`Query` (src/databases/database.py) defines `resolve` and the
properties `table`, `op`, `param`, `child`, but no attribute `where`:
the `where` method appears in the file only inside a comment block.
Python's attribute lookup therefore fails before any call is made, and
the expression raises `AttributeError` with the standard message; no
`Query` value is ever produced. -/
def Query.whereCall (_q : Query) (_filters : Str) : Except Str Query :=
  Except.error (str "'Query' object has no attribute 'where'")

/-- Embeds `Viewer.build_query` (src/viewer.py): builds the SELECT query
for the current table and selection and, when a filter is set, evaluates
`query.where(self._filter)`.  The argument `table` carries the result of
the `self._database[self._table]` lookup (performed by the external
`Database.__getitem__`); `selection` and `filter?` carry the viewer's
`_selection` and `_filter` state.  An exception raised by the `where`
attribute lookup propagates out of the method. -/
def Viewer.build_query (table : Table) (selection : PyParam)
    (filter? : Option Str) : Except Str Query :=
  let query := table.select selection
  match filter? with
  | Option.none => Except.ok query
  | Option.some f => Query.whereCall query f

/-- One observable step performed against the sqlite3 engine. -/
inductive DbEvent where
  | connect
  | cursor
  | exec
  | commit
  | rollback
  | fetchall
  | close
  deriving DecidableEq, Repr

/-- Embeds `SqliteDatabase.execute` (src/databases/sqlite.py) as the trace
of engine events it performs, given whether `cursor.execute` raises.  The
body is `with self.connect() as conn: c = conn.cursor(); c.execute(sql,
params); conn.commit()`.  Per the documented semantics of using an
`sqlite3.Connection` as a context manager, `__exit__` commits the open
transaction on normal exit and rolls it back on an exception; it does not
close the connection in either case.  Returns the event trace and whether
the call returns normally (`false` = the engine error propagates). -/
def SqliteDatabase.execute (execRaises : Bool) : List DbEvent × Bool :=
  if execRaises then
    ([DbEvent.connect, DbEvent.cursor, DbEvent.exec, DbEvent.rollback], false)
  else
    ([DbEvent.connect, DbEvent.cursor, DbEvent.exec, DbEvent.commit, DbEvent.commit], true)

/-- Embeds `SqliteDatabase.fetch` (src/databases/sqlite.py) as its engine
event trace, given whether `cursor.execute` raises.  The body is `with
self.connect() as conn: c = conn.cursor(); c.execute(sql, params); return
c.fetchall()`; the context-manager `__exit__` commits on normal exit,
rolls back on an exception, and never closes the connection. -/
def SqliteDatabase.fetch (execRaises : Bool) : List DbEvent × Bool :=
  if execRaises then
    ([DbEvent.connect, DbEvent.cursor, DbEvent.exec, DbEvent.rollback], false)
  else
    ([DbEvent.connect, DbEvent.cursor, DbEvent.exec, DbEvent.fetchall, DbEvent.commit], true)

/-- A result row as returned by `Database.fetch`. -/
abbrev Row := List PyVal

/-- The user-visible state of the viewer's widgets: the displayed column
headers, the displayed rows, the error line, and the SQL text box. -/
structure ViewState where
  columns : List Str
  rows : List Row
  errorText : Str
  sqlText : Str
  deriving DecidableEq, Repr

/-- Embeds `Viewer.update_view` (src/viewer.py).  `fetchResult` is the
outcome of the call `self._database.fetch(sql, ())` (the storage engine
is external to this function): `Except.error e` means the call raised and
`e` is `str(error)`.  The `try` block covers only the fetch: a raised
fetch error is caught, written to the error line, and the method returns
with the table widget untouched.  `get_selected_columns` is called
outside the `try`, so an exception it raises propagates out of
`update_view` (the `Except.error` result).  On full success the columns,
the rows and (when `set_sql`) the SQL text are set and the error line is
cleared. -/
def Viewer.update_view (fetchResult : Except Str (List Row)) (sql : Str)
    (set_sql : Bool) (st : ViewState) : Except PyErr ViewState :=
  match fetchResult with
  | Except.error e => Except.ok { st with errorText := e }
  | Except.ok data =>
    match get_selected_columns sql with
    | Except.error e => Except.error e
    | Except.ok cols =>
      Except.ok { columns := cols, rows := data, errorText := [],
                  sqlText := if set_sql then sql else st.sqlText }

/-- Is a dynamically-typed value a Python string? -/
def PyVal.isStr : PyVal → Bool
  | PyVal.str _ => true
  | PyVal.int _ => false

/-- A SELECT parameter that the resolver's checks reject with `TypeError`:
not a Python list, or a list with a non-string item. -/
def selectParamBad : PyParam → Bool
  | PyParam.vlist xs => !(xs.all PyVal.isStr)
  | _ => true

/-- A string consisting of space characters only (padding that may
surround a column name in a SELECT list). -/
def spacesOnly (s : Str) : Prop := ∀ c ∈ s, c = 32

/-- A plain column token: non-empty, containing neither a comma nor any
whitespace character. -/
def colToken (s : Str) : Prop := s ≠ [] ∧ ∀ c ∈ s, c ≠ 44 ∧ isPyWS c = false

/-- A column as it appears in a SELECT list: the token together with
optional runs of spaces before and after it. -/
structure PaddedCol where
  pre : Str
  col : Str
  post : Str

/-- The text of a padded column. -/
def PaddedCol.render (x : PaddedCol) : Str := x.pre ++ x.col ++ x.post

/-- Well-formedness of a padded column. -/
def PaddedCol.Ok (x : PaddedCol) : Prop :=
  spacesOnly x.pre ∧ colToken x.col ∧ spacesOnly x.post

/-- Well-formedness plus the column token being ASCII (on which the
model's `pyLower` agrees exactly with Python's `str.lower`). -/
def PaddedCol.OkA (x : PaddedCol) : Prop := x.Ok ∧ ∀ c ∈ x.col, c < 128

/-- The text that follows the first column of a SELECT list: either the
suffix `S` directly (single column) or a comma, the remaining columns and
then `S`. -/
def restAfter (t : List PaddedCol) (S : Str) : Str :=
  match t with
  | [] => S
  | _ :: _ => 44 :: List.intercalate [44] (t.map PaddedCol.render) ++ S

/-! Helper lemmas. -/

theorem joinComma_ok : ∀ xs : List PyVal, xs.all PyVal.isStr = true →
    ∃ s, joinComma xs = Except.ok s
  | [], _ => ⟨[], rfl⟩
  | [PyVal.str s], _ => ⟨s, rfl⟩
  | PyVal.str s :: v :: rest, h => by
    have h' : (v :: rest).all PyVal.isStr = true := by
      simp only [List.all_cons, Bool.and_eq_true] at h ⊢
      exact ⟨h.2.1, h.2.2⟩
    obtain ⟨r, hr⟩ := joinComma_ok (v :: rest) h'
    exact ⟨s ++ 44 :: r, by simp [joinComma, hr, Except.map]⟩
  | PyVal.int n :: rest, h => by
    simp [List.all_cons, PyVal.isStr] at h

theorem joinComma_typeError : ∀ xs : List PyVal, xs.all PyVal.isStr = false →
    ∃ m, joinComma xs = Except.error (PyErr.typeError m)
  | [], h => by simp at h
  | [PyVal.str s], h => by simp [PyVal.isStr] at h
  | PyVal.str s :: v :: rest, h => by
    have h' : (v :: rest).all PyVal.isStr = false := by
      cases hv : (v :: rest).all PyVal.isStr with
      | false => rfl
      | true =>
        exfalso
        rw [List.all_cons, hv] at h
        simp [PyVal.isStr] at h
    obtain ⟨m, hm⟩ := joinComma_typeError (v :: rest) h'
    exact ⟨m, by simp [joinComma, hm, Except.map]⟩
  | PyVal.int n :: rest, _ => ⟨str "sequence item: expected str instance", by cases rest <;> rfl⟩

theorem joinComma_map_str : ∀ cs : List Str,
    joinComma (cs.map PyVal.str) = Except.ok (List.intercalate [44] cs)
  | [] => rfl
  | [c] => by simp [joinComma, List.intercalate]
  | c :: c' :: t => by
    have ih := joinComma_map_str (c' :: t)
    simp only [List.map_cons] at ih ⊢
    simp [joinComma, ih, Except.map, List.intercalate, List.intersperse]

theorem splitComma_head : ∀ s : Str,
    ∃ t, splitComma s = s.takeWhile (fun c => !(c == 44)) :: t
  | [] => ⟨[], rfl⟩
  | c :: rest => by
    obtain ⟨t, ht⟩ := splitComma_head rest
    by_cases hc : c = 44
    · subst hc
      exact ⟨splitComma rest, by simp [splitComma, List.takeWhile_cons]⟩
    · refine ⟨t, ?_⟩
      have hb : (!(c == 44)) = true := by simp [hc]
      simp [splitComma, hc, ht, List.takeWhile_cons, hb]

theorem splitComma_ne_nil (s : Str) : splitComma s ≠ [] := by
  obtain ⟨t, ht⟩ := splitComma_head s
  simp [ht]

theorem collectColumns_ne_nil : ∀ {l : List Str}, l ≠ [] → collectColumns l ≠ []
  | [], h => absurd rfl h
  | e :: rest, _ => by
    by_cases h32 : 32 ∈ e <;> simp [collectColumns, h32]

theorem mem_of_mem_takeWhile {p : Nat → Bool} {ch : Nat} :
    ∀ {l : Str}, ch ∈ List.takeWhile p l → ch ∈ l
  | [], h => by simp [List.takeWhile] at h
  | c :: t, h => by
    rw [List.takeWhile_cons] at h
    by_cases hp : p c = true
    · simp [hp] at h
      rcases h with h | h
      · simp [h]
      · exact List.mem_cons_of_mem _ (mem_of_mem_takeWhile h)
    · simp [Bool.eq_false_iff.mpr hp] at h

theorem mem_of_mem_dropWhile {p : Nat → Bool} {ch : Nat} :
    ∀ {l : Str}, ch ∈ List.dropWhile p l → ch ∈ l
  | [], h => by simp [List.dropWhile] at h
  | c :: t, h => by
    rw [List.dropWhile_cons] at h
    by_cases hp : p c = true
    · simp [hp] at h
      exact List.mem_cons_of_mem _ (mem_of_mem_dropWhile h)
    · simpa [Bool.eq_false_iff.mpr hp] using h

theorem mem_of_mem_pyStrip {ch : Nat} {s : Str} (h : ch ∈ pyStrip s) : ch ∈ s := by
  unfold pyStrip rstrip lstrip at h
  rw [List.mem_reverse] at h
  have h1 := mem_of_mem_dropWhile h
  rw [List.mem_reverse] at h1
  exact mem_of_mem_dropWhile h1

theorem mem_of_mem_splitComma {ch : Nat} :
    ∀ {s : Str} {e : Str}, e ∈ splitComma s → ch ∈ e → ch ∈ s
  | [], e, he, hch => by
    simp [splitComma] at he
    subst he
    simp at hch
  | c :: rest, e, he, hch => by
    by_cases hc : c = 44
    · simp [splitComma, hc] at he
      rcases he with he | he
      · subst he; simp at hch
      · exact List.mem_cons_of_mem _ (mem_of_mem_splitComma he hch)
    · obtain ⟨t, ht⟩ := splitComma_head rest
      simp only [splitComma, if_neg hc, ht] at he
      rw [List.mem_cons] at he
      rcases he with he | he
      · subst he
        cases hch with
        | head => exact List.mem_cons_self _ _
        | tail _ hch =>
          refine List.mem_cons_of_mem _ (mem_of_mem_splitComma (s := rest) ?_ hch)
          rw [ht]; exact List.mem_cons_self _ _
      · refine List.mem_cons_of_mem _ (mem_of_mem_splitComma (s := rest) ?_ hch)
        rw [ht]; exact List.mem_cons_of_mem _ he

theorem mem_of_mem_collectColumns {ch : Nat} :
    ∀ {l : List Str} {c : Str}, c ∈ collectColumns l → ch ∈ c → ∃ e ∈ l, ch ∈ e
  | [], c, hc, _ => by simp [collectColumns] at hc
  | e :: rest, c, hc, hch => by
    by_cases h32 : 32 ∈ e
    · simp [collectColumns, h32] at hc
      subst hc
      exact ⟨e, List.mem_cons_self _ _, mem_of_mem_takeWhile hch⟩
    · simp [collectColumns, h32] at hc
      rcases hc with hc | hc
      · subst hc; exact ⟨c, List.mem_cons_self _ _, hch⟩
      · obtain ⟨e', he', hch'⟩ := mem_of_mem_collectColumns hc hch
        exact ⟨e', List.mem_cons_of_mem _ he', hch'⟩

theorem not_upper_of_mem_pyLower {ch : Nat} {s : Str} (h : ch ∈ pyLower s) :
    ¬(65 ≤ ch ∧ ch ≤ 90) := by
  unfold pyLower at h
  rw [List.mem_map] at h
  obtain ⟨a, _, ha⟩ := h
  unfold pyLowerCh at ha
  by_cases hr : 65 ≤ a ∧ a ≤ 90
  · rw [if_pos hr] at ha; omega
  · rw [if_neg hr] at ha; omega

theorem dropWhile_append_all {p : Nat → Bool} : ∀ {a : Str} (b : Str),
    (∀ x ∈ a, p x = true) → List.dropWhile p (a ++ b) = List.dropWhile p b
  | [], _, _ => rfl
  | c :: t, b, h => by
    have hc : p c = true := h c (List.mem_cons_self _ _)
    rw [List.cons_append, List.dropWhile_cons, if_pos hc]
    exact dropWhile_append_all b (fun x hx => h x (List.mem_cons_of_mem _ hx))

theorem dropWhile_cons_false {p : Nat → Bool} {c : Nat} (t : Str) (h : p c = false) :
    List.dropWhile p (c :: t) = c :: t := by
  rw [List.dropWhile_cons, if_neg (by simp [h])]

theorem dropWhile_all_false {p : Nat → Bool} : ∀ {l : Str},
    (∀ x ∈ l, p x = false) → List.dropWhile p l = l
  | [], _ => rfl
  | c :: t, h => by
    rw [dropWhile_cons_false t (h c (List.mem_cons_self _ _))]

theorem takeWhile_append_all {p : Nat → Bool} : ∀ {a : Str} (b : Str),
    (∀ x ∈ a, p x = true) → List.takeWhile p (a ++ b) = a ++ List.takeWhile p b
  | [], _, _ => rfl
  | c :: t, b, h => by
    have hc : p c = true := h c (List.mem_cons_self _ _)
    rw [List.cons_append, List.takeWhile_cons, if_pos hc, List.cons_append,
      takeWhile_append_all b (fun x hx => h x (List.mem_cons_of_mem _ hx))]

theorem takeWhile_cons_false {p : Nat → Bool} {c : Nat} (t : Str) (h : p c = false) :
    List.takeWhile p (c :: t) = [] := by
  rw [List.takeWhile_cons, if_neg (by simp [h])]

theorem dropWhile_append_split {p : Nat → Bool} : ∀ (a b : Str),
    List.dropWhile p (a ++ b)
      = if List.dropWhile p a = [] then List.dropWhile p b
        else List.dropWhile p a ++ b
  | [], b => by simp
  | c :: t, b => by
    cases hc : p c with
    | true =>
      rw [List.cons_append, List.dropWhile_cons, if_pos hc, List.dropWhile_cons, if_pos hc]
      exact dropWhile_append_split t b
    | false =>
      rw [List.cons_append, dropWhile_cons_false _ hc, dropWhile_cons_false _ hc,
        if_neg (by simp), List.cons_append]

theorem rstrip_append_keep (a : Str) (g : Nat) (z : Str) (hg : isPyWS g = false) :
    rstrip (a ++ g :: z) = a ++ g :: rstrip z := by
  unfold rstrip
  rw [List.reverse_append, List.reverse_cons, List.append_assoc,
    dropWhile_append_split]
  by_cases hz : List.dropWhile isPyWS z.reverse = []
  · rw [if_pos hz, List.singleton_append, dropWhile_cons_false _ hg, hz]
    simp
  · rw [if_neg hz]
    simp

theorem rstrip_append_ws (x q : Str) (hq : ∀ c ∈ q, isPyWS c = true) :
    rstrip (x ++ q) = rstrip x := by
  unfold rstrip
  rw [List.reverse_append,
    dropWhile_append_all _ (fun c hc => hq c (List.mem_reverse.mp hc))]

theorem rstrip_no_ws (c : Str) (h : ∀ ch ∈ c, isPyWS ch = false) : rstrip c = c := by
  unfold rstrip
  rw [dropWhile_all_false (fun x hx => h x (List.mem_reverse.mp hx)), List.reverse_reverse]

theorem spacesOnly_ws {q : Str} (h : spacesOnly q) : ∀ c ∈ q, isPyWS c = true :=
  fun c hc => by rw [h c hc]; rfl

theorem pyStrip_padded (p c q : Str) (hp : spacesOnly p) (hc : colToken c)
    (hq : spacesOnly q) : pyStrip (p ++ c ++ q) = c := by
  obtain ⟨hne, hcc⟩ := hc
  unfold pyStrip lstrip
  rw [List.append_assoc, dropWhile_append_all _ (spacesOnly_ws hp)]
  cases c with
  | nil => exact absurd rfl hne
  | cons c0 ct =>
    rw [List.cons_append, dropWhile_cons_false _ (hcc c0 (List.mem_cons_self _ _)).2,
      show c0 :: (ct ++ q) = (c0 :: ct) ++ q from rfl,
      rstrip_append_ws _ q (spacesOnly_ws hq),
      rstrip_no_ws _ (fun ch hch => (hcc ch hch).2)]

theorem splitComma_append_comma : ∀ (a s : Str), (∀ x ∈ a, x ≠ 44) →
    splitComma (a ++ 44 :: s) = a :: splitComma s
  | [], s, _ => by simp [splitComma]
  | c :: t, s, h => by
    have hc : c ≠ 44 := h c (List.mem_cons_self _ _)
    have ih := splitComma_append_comma t s (fun x hx => h x (List.mem_cons_of_mem _ hx))
    rw [List.cons_append]
    simp only [splitComma, if_neg hc, ih]

theorem intercalate_comma_cons (a : Str) (l : List Str) (hl : l ≠ []) :
    List.intercalate [44] (a :: l) = a ++ 44 :: List.intercalate [44] l := by
  cases l with
  | nil => exact absurd rfl hl
  | cons b t => simp [List.intercalate, List.intersperse]

theorem intercalate_comma_singleton (a : Str) :
    List.intercalate [44] [a] = a := by
  simp [List.intercalate]

theorem intercalate_cons_restAfter (x : PaddedCol) (t : List PaddedCol) (S : Str) :
    List.intercalate [44] ((x :: t).map PaddedCol.render) ++ S
      = PaddedCol.render x ++ restAfter t S := by
  cases t with
  | nil => rw [List.map_cons, List.map_nil, intercalate_comma_singleton]; rfl
  | cons y t' =>
    rw [List.map_cons, intercalate_comma_cons _ _ (by simp), restAfter]
    simp

theorem notSpace_of_not_ws {c : Nat} (h : isPyWS c = false) : notSpace c = true := by
  simp only [isPyWS, Bool.or_eq_false_iff, beq_eq_false_iff_ne, ne_eq] at h
  simp [notSpace, h.1]

theorem takeWhile_notSpace_ws_head (q R : Str) (hq : spacesOnly q) :
    List.takeWhile notSpace (q ++ 32 :: R) = [] := by
  cases q with
  | nil => exact takeWhile_cons_false _ (by simp [notSpace])
  | cons q0 qt =>
    have h0 : q0 = 32 := hq q0 (List.mem_cons_self _ _)
    subst h0
    exact takeWhile_cons_false _ (by simp [notSpace])

theorem pyLowerCh_comma_ws (c : Nat) (h44 : c ≠ 44) (hws : isPyWS c = false) :
    pyLowerCh c ≠ 44 ∧ isPyWS (pyLowerCh c) = false := by
  unfold pyLowerCh
  by_cases hr : 65 ≤ c ∧ c ≤ 90
  · rw [if_pos hr]
    refine ⟨by omega, ?_⟩
    simp only [isPyWS, Bool.or_eq_false_iff, beq_eq_false_iff_ne, ne_eq]
    omega
  · rw [if_neg hr]
    exact ⟨h44, hws⟩

theorem pyLower_spacesOnly : ∀ {s : Str}, spacesOnly s → pyLower s = s
  | [], _ => rfl
  | c :: t, h => by
    have hc : c = 32 := h c (List.mem_cons_self _ _)
    have ih := pyLower_spacesOnly (fun x hx => h x (List.mem_cons_of_mem _ hx))
    subst hc
    unfold pyLower at ih ⊢
    rw [List.map_cons, ih]
    rfl

theorem pyLower_intercalate_comma : ∀ (L : List Str),
    pyLower (List.intercalate [44] L) = List.intercalate [44] (L.map pyLower)
  | [] => rfl
  | [a] => by
    rw [intercalate_comma_singleton, List.map_cons, List.map_nil, intercalate_comma_singleton]
  | a :: b :: t => by
    have ih := pyLower_intercalate_comma (b :: t)
    rw [List.map_cons,
      intercalate_comma_cons (pyLower a) (List.map pyLower (b :: t)) (by simp),
      intercalate_comma_cons a (b :: t) (by simp)]
    unfold pyLower at ih ⊢
    rw [List.map_append, List.map_cons, ih]
    rfl

theorem lowered_Ok {x : PaddedCol} (h : x.Ok) :
    (PaddedCol.mk x.pre (pyLower x.col) x.post).Ok := by
  obtain ⟨hpre, ⟨hcne, hcc⟩, hpost⟩ := h
  refine ⟨hpre, ⟨?_, ?_⟩, hpost⟩
  · simp only [pyLower, ne_eq, List.map_eq_nil_iff]
    exact hcne
  · intro c hc
    simp only [pyLower, List.mem_map] at hc
    obtain ⟨a, ha, rfl⟩ := hc
    exact pyLowerCh_comma_ws a (hcc a ha).1 (hcc a ha).2

theorem pyLower_render (x : PaddedCol) (hpre : spacesOnly x.pre) (hpost : spacesOnly x.post) :
    pyLower (PaddedCol.render x)
      = PaddedCol.render (PaddedCol.mk x.pre (pyLower x.col) x.post) := by
  unfold PaddedCol.render pyLower
  rw [List.map_append, List.map_append,
    show List.map pyLowerCh x.pre = x.pre from pyLower_spacesOnly hpre,
    show List.map pyLowerCh x.post = x.post from pyLower_spacesOnly hpost]

theorem map_pyLower_renders : ∀ (xs : List PaddedCol), (∀ x ∈ xs, x.Ok) →
    (xs.map PaddedCol.render).map pyLower
      = (xs.map (fun x => PaddedCol.mk x.pre (pyLower x.col) x.post)).map PaddedCol.render
  | [], _ => rfl
  | x :: t, h => by
    have hx := h x (List.mem_cons_self _ _)
    rw [List.map_cons, List.map_cons, List.map_cons, List.map_cons,
      pyLower_render x hx.1 hx.2.2,
      map_pyLower_renders t (fun z hz => h z (List.mem_cons_of_mem _ hz))]

theorem startsWith_append : ∀ (p r : Str), startsWith p (p ++ r) = true
  | [], _ => rfl
  | c :: t, r => by simp [startsWith, startsWith_append t r]

theorem containsSub_of_prefix (p r : Str) : containsSub p (p ++ r) = true := by
  cases p with
  | nil =>
    cases r with
    | nil => rfl
    | cons c t => simp [containsSub, startsWith]
  | cons c t =>
    have h := startsWith_append (c :: t) r
    rw [List.cons_append] at h ⊢
    simp [containsSub, h]

theorem findSub_zero (pat : Str) (c : Nat) (t : Str)
    (hp : startsWith pat (c :: t) = true) : findSub pat (c :: t) = 0 := by
  simp [findSub, hp]

theorem drop_len_append : ∀ (a b : Str), List.drop a.length (a ++ b) = b
  | [], _ => rfl
  | c :: t, b => by
    rw [List.cons_append, List.length_cons, List.drop_succ_cons, drop_len_append t b]

theorem lstrip_padded_append (p c q R : Str) (hp : spacesOnly p) (hc : colToken c) :
    List.dropWhile isPyWS ((p ++ c ++ q) ++ R) = (c ++ q) ++ R := by
  obtain ⟨hcne, hcc⟩ := hc
  have h1 : (p ++ c ++ q) ++ R = p ++ (c ++ (q ++ R)) := by simp
  rw [h1, dropWhile_append_all _ (spacesOnly_ws hp)]
  cases c with
  | nil => exact absurd rfl hcne
  | cons c0 ct =>
    rw [List.cons_append, dropWhile_cons_false _ (hcc c0 (List.mem_cons_self _ _)).2]
    simp

theorem pyStrip_last_chunk (p c q W : Str) (g2 : Nat) (hp : spacesOnly p)
    (hc : colToken c) (_hq : spacesOnly q) (hg2 : isPyWS g2 = false) :
    pyStrip (p ++ (c ++ (q ++ (32 :: g2 :: W))))
      = c ++ (q ++ (32 :: (g2 :: rstrip W))) := by
  obtain ⟨hcne, hcc⟩ := hc
  unfold pyStrip lstrip
  rw [dropWhile_append_all _ (spacesOnly_ws hp)]
  cases c with
  | nil => exact absurd rfl hcne
  | cons c0 ct =>
    rw [List.cons_append, dropWhile_cons_false _ (hcc c0 (List.mem_cons_self _ _)).2]
    have h2 : c0 :: (ct ++ (q ++ (32 :: g2 :: W)))
        = ((c0 :: ct) ++ q ++ [32]) ++ g2 :: W := by simp
    rw [h2, rstrip_append_keep _ _ _ hg2]
    simp

theorem firstTokenOf_col_chunk (c q R : Str) (hc : colToken c) (hq : spacesOnly q) :
    firstTokenOf (c ++ (q ++ (32 :: R))) = c := by
  unfold firstTokenOf
  rw [takeWhile_append_all _ (fun ch hch => notSpace_of_not_ws (hc.2 ch hch).2),
    takeWhile_notSpace_ws_head q R hq, List.append_nil]

theorem collectColumns_spec : ∀ (xs : List PaddedCol) (g2 : Nat) (Z : Str),
    isPyWS g2 = false → g2 ≠ 44 → (∀ x ∈ xs, x.Ok) → xs ≠ [] →
    collectColumns ((splitComma
        (List.intercalate [44] (xs.map PaddedCol.render) ++ 32 :: g2 :: Z)).map pyStrip)
      = xs.map PaddedCol.col
  | [], _, _, _, _, _, hne => absurd rfl hne
  | [x], g2, Z, hg2w, hg2c, hok, _ => by
    obtain ⟨hpre, hcol, hpost⟩ := hok x (List.mem_cons_self _ _)
    rw [List.map_cons, List.map_nil, intercalate_comma_singleton]
    obtain ⟨t, ht⟩ := splitComma_head (PaddedCol.render x ++ 32 :: g2 :: Z)
    rw [ht, List.map_cons]
    have hmemA : ∀ ch ∈ x.pre ++ (x.col ++ (x.post ++ [32, g2])),
        (fun c => !(c == 44)) ch = true := by
      intro ch hch
      simp only [List.mem_append, List.mem_cons, List.not_mem_nil, or_false] at hch
      rcases hch with h | h | h | h | h
      · rw [hpre ch h]; rfl
      · simp [(hcol.2 ch h).1]
      · rw [hpost ch h]; rfl
      · rw [h]; rfl
      · rw [h]; simp [hg2c]
    have hA : List.takeWhile (fun c => !(c == 44)) (PaddedCol.render x ++ 32 :: g2 :: Z)
        = x.pre ++ (x.col ++ (x.post ++ (32 :: g2
            :: List.takeWhile (fun c => !(c == 44)) Z))) := by
      have h1 : PaddedCol.render x ++ 32 :: g2 :: Z
          = (x.pre ++ (x.col ++ (x.post ++ [32, g2]))) ++ Z := by
        simp [PaddedCol.render]
      rw [h1, takeWhile_append_all _ hmemA]
      simp
    rw [hA, pyStrip_last_chunk _ _ _ _ _ hpre hcol hpost hg2w]
    simp only [collectColumns]
    rw [if_pos (by simp : 32 ∈ x.col ++ (x.post ++ (32 :: (g2
        :: rstrip (List.takeWhile (fun c => !(c == 44)) Z))))),
      firstTokenOf_col_chunk _ _ _ hcol hpost]
    rfl
  | x :: y :: t, g2, Z, hg2w, hg2c, hok, _ => by
    obtain ⟨hpre, hcol, hpost⟩ := hok x (List.mem_cons_self _ _)
    have ih := collectColumns_spec (y :: t) g2 Z hg2w hg2c
      (fun z hz => hok z (List.mem_cons_of_mem _ hz)) (by simp)
    have hnc : ∀ ch ∈ PaddedCol.render x, ch ≠ 44 := by
      intro ch hch
      simp only [PaddedCol.render, List.mem_append] at hch
      rcases hch with (h | h) | h
      · rw [hpre ch h]; decide
      · exact (hcol.2 ch h).1
      · rw [hpost ch h]; decide
    have hsh : List.intercalate [44] ((x :: y :: t).map PaddedCol.render) ++ 32 :: g2 :: Z
        = PaddedCol.render x ++ 44
            :: (List.intercalate [44] ((y :: t).map PaddedCol.render) ++ 32 :: g2 :: Z) := by
      rw [List.map_cons, intercalate_comma_cons _ _ (by simp)]
      simp
    rw [hsh, splitComma_append_comma _ _ hnc, List.map_cons,
      show pyStrip (PaddedCol.render x) = x.col from
        pyStrip_padded x.pre x.col x.post hpre hcol hpost]
    have h32 : 32 ∉ x.col := by
      intro hm
      have hws := (hcol.2 32 hm).2
      simp [isPyWS] at hws
    simp only [collectColumns]
    rw [if_neg h32, ih]
    rfl

theorem pyLower_append (a b : Str) : pyLower (a ++ b) = pyLower a ++ pyLower b := by
  unfold pyLower
  exact List.map_append _ _ _

theorem pyLower_literal_select : pyLower (str "SELECT ") = str "select" ++ [32] := by decide

theorem pyLower_literal_from : pyLower (str " FROM ") = 32 :: 102 :: str "rom " := by decide

theorem get_selected_columns_pos {sql : Str}
    (h : containsSub (str "select") (pyLower sql) = true) :
    get_selected_columns sql
      = Except.ok (collectColumns ((splitComma (pyStrip ((pyLower sql).drop
          (findSub (str "select") (pyLower sql) + 6)))).map pyStrip)) := by
  unfold get_selected_columns
  rw [if_pos h]

theorem extract_after_select (R : Str) :
    pyStrip ((str "select" ++ R).drop (findSub (str "select") (str "select" ++ R) + 6))
      = pyStrip R := by
  have hc : str "select" ++ R = 115 :: (str "elect" ++ R) := rfl
  have hsw : startsWith (str "select") (115 :: (str "elect" ++ R)) = true := by
    rw [← hc]
    exact startsWith_append _ _
  rw [hc, findSub_zero _ _ _ hsw, ← hc, Nat.zero_add,
    show (6 : Nat) = (str "select").length from rfl, drop_len_append]

theorem pyStrip_select_body (x : PaddedCol) (t : List PaddedCol) (Z2 : Str)
    (hx : x.Ok) :
    pyStrip (32 :: (List.intercalate [44] ((x :: t).map PaddedCol.render)
        ++ (32 :: 102 :: Z2)))
      = List.intercalate [44] ((PaddedCol.mk [] x.col x.post :: t).map PaddedCol.render)
        ++ (32 :: 102 :: rstrip Z2) := by
  unfold pyStrip lstrip
  rw [List.dropWhile_cons, if_pos (by decide : isPyWS 32 = true),
    intercalate_cons_restAfter x t (32 :: 102 :: Z2),
    show PaddedCol.render x ++ restAfter t (32 :: 102 :: Z2)
      = (x.pre ++ x.col ++ x.post) ++ restAfter t (32 :: 102 :: Z2) from rfl,
    lstrip_padded_append x.pre x.col x.post _ hx.1 hx.2.1]
  have hsh : (x.col ++ x.post) ++ restAfter t (32 :: 102 :: Z2)
      = (List.intercalate [44] ((PaddedCol.mk [] x.col x.post :: t).map PaddedCol.render)
          ++ [32]) ++ 102 :: Z2 := by
    rw [show ((x.col ++ x.post) ++ restAfter t (32 :: 102 :: Z2) : Str)
        = PaddedCol.render (PaddedCol.mk [] x.col x.post)
            ++ restAfter t (32 :: 102 :: Z2) from by simp [PaddedCol.render],
      ← intercalate_cons_restAfter]
    simp
  rw [hsh, rstrip_append_keep _ _ _ (by decide : isPyWS 102 = false)]
  simp

/-! Claim theorems. -/

/-- C1: the code evaluated at the failing interaction.  The claim's
contract for `Query.where` is unimplemented: the method exists in
src/databases/database.py only as commented-out code, so the class has
no `where` attribute and any call — here `Viewer.build_query` applying
the filter `id=1` on top of `Table('users').select(['id'])`, and the
bare call `query.where('id=1')` on that SELECT query — raises
`AttributeError` instead of returning a new `WHERE` query (or raising
the claimed `StructuralError` on a non-SELECT base). -/
theorem C1_where_unimplemented :
    (Viewer.build_query (Table.mk (str "users") [str "id"])
        (PyParam.vlist [PyVal.str (str "id")]) (Option.some (str "id=1"))
      = Except.error (str "'Query' object has no attribute 'where'")) ∧
    (Query.whereCall
        (Query.mk (str "users") QueryOp.SELECT (PyParam.vlist [PyVal.str (str "id")])
          Option.none)
        (str "id=1")
      = Except.error (str "'Query' object has no attribute 'where'")) :=
  ⟨rfl, rfl⟩

/-- C2: for every table name `T` and non-empty list `C` of column-name
strings, resolving `Table(T).select(C)` yields exactly
`"SELECT " ++ join(C, ",") ++ " FROM " ++ T`, with no space after the
commas. -/
theorem C2_select_resolve (T : Str) (gcols : List Str) (C : List Str) (_hC : C ≠ []) :
    ((Table.mk T gcols).select (PyParam.vlist (C.map PyVal.str))).resolve
      = Except.ok (str "SELECT " ++ List.intercalate [44] C ++ str " FROM " ++ T) := by
  simp [Table.select, Query.resolve, SqliteResolver.resolve, joinComma_map_str, Except.map]

/-- C2 (witness): the theorem at table `users` with columns `id,name`. -/
theorem C2_select_resolve_witness :
    ([str "id", str "name"] ≠ ([] : List Str)) ∧
    ((Table.mk (str "users") []).select
        (PyParam.vlist ([str "id", str "name"].map PyVal.str))).resolve
      = Except.ok (str "SELECT " ++ List.intercalate [44] [str "id", str "name"]
          ++ str " FROM " ++ str "users") :=
  ⟨by decide, C2_select_resolve (str "users") [] [str "id", str "name"] (by decide)⟩

/-- C3 (counterexample): a `WHERE` node whose child is itself a
well-formed `WHERE` chain terminating in a `SELECT` — the child resolves
successfully, so it "resolves to a SELECT" statement — yet the outer
node's `resolve()` raises a structural `ValueError` instead of returning
the child's SQL concatenated with the predicate. -/
theorem C3_nested_where_counterexample :
    (SqliteResolver.resolve
        (Query.mk (str "u") QueryOp.WHERE (PyParam.vstr (str "x=1"))
          (Option.some (Query.mk (str "u") QueryOp.SELECT
            (PyParam.vlist [PyVal.str (str "b")]) Option.none)))
      = Except.ok (str "SELECT b FROM u WHERE x=1")) ∧
    (SqliteResolver.resolve
        (Query.mk (str "u") QueryOp.WHERE (PyParam.vstr (str "z=3"))
          (Option.some (Query.mk (str "u") QueryOp.WHERE (PyParam.vstr (str "x=1"))
            (Option.some (Query.mk (str "u") QueryOp.SELECT
              (PyParam.vlist [PyVal.str (str "b")]) Option.none)))))
      = Except.error (PyErr.valueError (str "Child query has to have QueryOp = SELECT."))) ∧
    (Except.error (PyErr.valueError (str "Child query has to have QueryOp = SELECT."))
      ≠ Except.ok (str "SELECT b FROM u WHERE x=1" ++ str " WHERE " ++ str "z=3")) :=
  ⟨rfl, rfl, fun h => Except.noConfusion h⟩

/-- C3 (amended): for every `WHERE` node with a string parameter whose
child is present, is itself a `SELECT` node, and resolves successfully to
`s`, resolving the `WHERE` node yields `s ++ " WHERE " ++ predicate`; a
child that only transitively reduces to a `SELECT` is rejected instead. -/
theorem C3_where_resolve_concat (t p : Str) (c : Query) (s : Str)
    (hop : c.op = QueryOp.SELECT) (hres : SqliteResolver.resolve c = Except.ok s) :
    SqliteResolver.resolve (Query.mk t QueryOp.WHERE (PyParam.vstr p) (Option.some c))
      = Except.ok (s ++ str " WHERE " ++ p) := by
  simp [SqliteResolver.resolve, hop, hres, Except.map]

/-- C3 (witness): the amended theorem at a concrete `SELECT` child. -/
theorem C3_where_resolve_concat_witness :
    SqliteResolver.resolve
        (Query.mk (str "u") QueryOp.WHERE (PyParam.vstr (str "x=1"))
          (Option.some (Query.mk (str "u") QueryOp.SELECT
            (PyParam.vlist [PyVal.str (str "b")]) Option.none)))
      = Except.ok (str "SELECT b FROM u" ++ str " WHERE " ++ str "x=1") :=
  C3_where_resolve_concat (str "u") (str "x=1")
    (Query.mk (str "u") QueryOp.SELECT (PyParam.vlist [PyVal.str (str "b")]) Option.none)
    (str "SELECT b FROM u") rfl rfl

/-- C4 (counterexample): a `SELECT` node whose parameter is the empty
list does not fail with a `TypeError`-kind error — it resolves
successfully to `SELECT  FROM t`, contradicting the claim that an empty
sequence is rejected. -/
theorem C4_empty_select_counterexample :
    SqliteResolver.resolve
        (Query.mk (str "t") QueryOp.SELECT (PyParam.vlist []) Option.none)
      = Except.ok (str "SELECT  FROM t") := rfl

/-- C4 (amended): for every child-less `SELECT` node, the resolver fails
with a `TypeError`-kind error exactly when the parameter is not a Python
list or is a list containing a non-string element; any list of strings —
including the empty list — is accepted and the node resolves
successfully. -/
theorem C4_select_param_check (t : Str) (p : PyParam) :
    (selectParamBad p = true →
      ∃ m, SqliteResolver.resolve (Query.mk t QueryOp.SELECT p Option.none)
        = Except.error (PyErr.typeError m)) ∧
    (selectParamBad p = false →
      ∃ s, SqliteResolver.resolve (Query.mk t QueryOp.SELECT p Option.none)
        = Except.ok s) := by
  constructor
  · intro hbad
    cases p with
    | vstr s => exact ⟨str "Param for select query has to be of type list.", rfl⟩
    | vnone => exact ⟨str "Param for select query has to be of type list.", rfl⟩
    | vlist xs =>
      have hxs : xs.all PyVal.isStr = false := by
        simpa [selectParamBad] using hbad
      obtain ⟨m, hm⟩ := joinComma_typeError xs hxs
      exact ⟨m, by simp [SqliteResolver.resolve, hm, Except.map]⟩
  · intro hgood
    cases p with
    | vstr s => simp [selectParamBad] at hgood
    | vnone => simp [selectParamBad] at hgood
    | vlist xs =>
      have hxs : xs.all PyVal.isStr = true := by
        simpa [selectParamBad] using hgood
      obtain ⟨s, hs⟩ := joinComma_ok xs hxs
      exact ⟨str "SELECT " ++ s ++ str " FROM " ++ t,
        by simp [SqliteResolver.resolve, hs, Except.map]⟩

/-- C4 (witness): the amended theorem at a non-list parameter (string)
and at a well-typed list. -/
theorem C4_select_param_check_witness :
    (∃ m, SqliteResolver.resolve
        (Query.mk (str "t") QueryOp.SELECT (PyParam.vstr (str "a")) Option.none)
      = Except.error (PyErr.typeError m)) ∧
    (∃ s, SqliteResolver.resolve
        (Query.mk (str "t") QueryOp.SELECT (PyParam.vlist [PyVal.str (str "a")]) Option.none)
      = Except.ok s) :=
  ⟨(C4_select_param_check (str "t") (PyParam.vstr (str "a"))).1 rfl,
   (C4_select_param_check (str "t") (PyParam.vlist [PyVal.str (str "a")])).2 rfl⟩

/-- C5 (counterexample): a `WHERE` node whose child is itself a
well-formed `WHERE` chain terminating in a `SELECT` does not resolve
successfully — the resolver rejects it with a structural `ValueError`
because only a direct `SELECT` child is accepted — even though that
child chain resolves on its own. -/
theorem C5_transitive_chain_counterexample :
    (SqliteResolver.resolve
        (Query.mk (str "t") QueryOp.WHERE (PyParam.vstr (str "y=2"))
          (Option.some (Query.mk (str "t") QueryOp.WHERE (PyParam.vstr (str "x=1"))
            (Option.some (Query.mk (str "t") QueryOp.SELECT
              (PyParam.vlist [PyVal.str (str "a")]) Option.none)))))
      = Except.error (PyErr.valueError (str "Child query has to have QueryOp = SELECT."))) ∧
    (SqliteResolver.resolve
        (Query.mk (str "t") QueryOp.WHERE (PyParam.vstr (str "x=1"))
          (Option.some (Query.mk (str "t") QueryOp.SELECT
            (PyParam.vlist [PyVal.str (str "a")]) Option.none)))
      = Except.ok (str "SELECT a FROM t WHERE x=1")) :=
  ⟨rfl, rfl⟩

/-- C5 (amended): for every `WHERE` node with a string parameter, the
resolver fails with a structural `ValueError` exactly when the node has
no child or its child's operation is not directly `SELECT`; in
particular a `WHERE` node whose child is itself a `WHERE` chain is
rejected, not resolved.  With a direct `SELECT` child the node resolves
to the child's resolution extended with the predicate. -/
theorem C5_where_structural_check (t p : Str) (c : Query) :
    (SqliteResolver.resolve (Query.mk t QueryOp.WHERE (PyParam.vstr p) Option.none)
      = Except.error (PyErr.valueError (str "Child for where query can not be None."))) ∧
    (c.op ≠ QueryOp.SELECT →
      SqliteResolver.resolve (Query.mk t QueryOp.WHERE (PyParam.vstr p) (Option.some c))
        = Except.error (PyErr.valueError (str "Child query has to have QueryOp = SELECT."))) ∧
    (c.op = QueryOp.SELECT →
      SqliteResolver.resolve (Query.mk t QueryOp.WHERE (PyParam.vstr p) (Option.some c))
        = (SqliteResolver.resolve c).map (fun s => s ++ str " WHERE " ++ p)) := by
  refine ⟨rfl, fun h => ?_, fun h => ?_⟩
  · simp [SqliteResolver.resolve, h]
  · simp [SqliteResolver.resolve, h]

/-- C5 (witness): the amended theorem at a concrete `WHERE`-shaped child
(hypothesis of the second conjunct discharged) and at a concrete
`SELECT` child (third conjunct). -/
theorem C5_where_structural_check_witness :
    (SqliteResolver.resolve
        (Query.mk (str "t") QueryOp.WHERE (PyParam.vstr (str "p"))
          (Option.some (Query.mk (str "t") QueryOp.WHERE (PyParam.vstr (str "q")) Option.none)))
      = Except.error (PyErr.valueError (str "Child query has to have QueryOp = SELECT."))) ∧
    (SqliteResolver.resolve
        (Query.mk (str "t") QueryOp.WHERE (PyParam.vstr (str "p"))
          (Option.some (Query.mk (str "t") QueryOp.SELECT
            (PyParam.vlist [PyVal.str (str "a")]) Option.none)))
      = (SqliteResolver.resolve (Query.mk (str "t") QueryOp.SELECT
            (PyParam.vlist [PyVal.str (str "a")]) Option.none)).map
          (fun s => s ++ str " WHERE " ++ str "p")) :=
  ⟨(C5_where_structural_check (str "t") (str "p")
      (Query.mk (str "t") QueryOp.WHERE (PyParam.vstr (str "q")) Option.none)).2.1
      (by simp [Query.op]),
   (C5_where_structural_check (str "t") (str "p")
      (Query.mk (str "t") QueryOp.SELECT (PyParam.vlist [PyVal.str (str "a")])
        Option.none)).2.2 rfl⟩

/-- C7: `get_selected_columns` fails with the `ParseError`-kind
`ValueError("Not a select command.")` exactly when the token `select` is
absent from the lowercased input; whenever the token is present the
function returns successfully. -/
theorem C7_parse_error_iff_no_select (s : Str) :
    get_selected_columns s
        = Except.error (PyErr.valueError (str "Not a select command."))
      ↔ containsSub (str "select") (pyLower s) = false := by
  unfold get_selected_columns
  cases hb : containsSub (str "select") (pyLower s) <;> simp [hb]

/-- C8: evaluation of the storage adapter's call traces.  On both the
success and the error path of both `execute` and `fetch`, the acquired
connection is never closed — the `with` block over an
`sqlite3.Connection` only commits or rolls back — so the claimed
release-on-every-exit-path discipline does not hold; a fresh connection
is acquired first in every call and `execute` does commit on success. -/
theorem C8_connection_never_closed :
    ((SqliteDatabase.execute false).1.contains DbEvent.close = false) ∧
    ((SqliteDatabase.execute true).1.contains DbEvent.close = false) ∧
    ((SqliteDatabase.fetch false).1.contains DbEvent.close = false) ∧
    ((SqliteDatabase.fetch true).1.contains DbEvent.close = false) ∧
    ((SqliteDatabase.execute false).1.head? = some DbEvent.connect) ∧
    ((SqliteDatabase.fetch false).1.head? = some DbEvent.connect) ∧
    ((SqliteDatabase.execute false).1.contains DbEvent.commit = true) ∧
    ((SqliteDatabase.execute false).2 = true) := by
  refine ⟨rfl, rfl, rfl, rfl, rfl, rfl, rfl, rfl⟩

/-- C9 (counterexample): after a successful fetch of a statement with no
`select` token (the engine accepts e.g. an UPDATE and `fetchall` returns
`[]`), the `ParseError`-kind error raised by the projection extractor
propagates out of `update_view` uncaught instead of being surfaced as an
error string — contradicting the claim that no error escapes the
update. -/
theorem C9_parse_error_escapes_counterexample :
    Viewer.update_view (Except.ok ([] : List Row)) (str "update t set x=1") true
        (ViewState.mk [str "a"] [] [] (str "SELECT a FROM t"))
      = Except.error (PyErr.valueError (str "Not a select command.")) := rfl

/-- C9 (amended): an error raised by the fetch call is caught and
surfaced as the single user-visible error string with the previously
displayed column list and result set left unchanged; but an error raised
by the projection extractor after a successful fetch is not caught and
escapes `update_view` (the previously displayed state is also unchanged
in that case, since the method aborts before touching the table
widget). -/
theorem C9_update_view_error_policy (e sql : Str) (b : Bool) (st : ViewState)
    (d : List Row) (pe : PyErr) :
    (Viewer.update_view (Except.error e) sql b st
      = Except.ok { st with errorText := e }) ∧
    (get_selected_columns sql = Except.error pe →
      Viewer.update_view (Except.ok d) sql b st = Except.error pe) := by
  constructor
  · rfl
  · intro h
    simp [Viewer.update_view, h]

/-- C9 (witness): the amended theorem at a concrete failed fetch and at a
concrete successful fetch of a `PRAGMA` statement whose text defeats the
extractor. -/
theorem C9_update_view_error_policy_witness :
    (Viewer.update_view (Except.error (str "no such table: users"))
        (str "SELECT a FROM users") true (ViewState.mk [str "a"] [] [] (str "SELECT a FROM t"))
      = Except.ok { ViewState.mk [str "a"] [] [] (str "SELECT a FROM t") with
          errorText := str "no such table: users" }) ∧
    (Viewer.update_view (Except.ok ([] : List Row)) (str "pragma table_info(users)") true
        (ViewState.mk [str "a"] [] [] (str "SELECT a FROM t"))
      = Except.error (PyErr.valueError (str "Not a select command."))) :=
  ⟨(C9_update_view_error_policy (str "no such table: users") (str "SELECT a FROM users")
      true (ViewState.mk [str "a"] [] [] (str "SELECT a FROM t")) []
      (PyErr.valueError (str "Not a select command."))).1,
   (C9_update_view_error_policy (str "no such table: users") (str "pragma table_info(users)")
      true (ViewState.mk [str "a"] [] [] (str "SELECT a FROM t")) []
      (PyErr.valueError (str "Not a select command."))).2 rfl⟩

/-- C10: whenever `get_selected_columns` succeeds, the returned list is
non-empty and every code point of every returned column label lies
outside the ASCII uppercase range — the whole input is lowercased before
extraction, so the original casing of identifiers is lost. -/
theorem C10_lowercase_nonempty (s : Str) (cols : List Str)
    (h : get_selected_columns s = Except.ok cols) :
    cols ≠ [] ∧ ∀ c ∈ cols, ∀ ch ∈ c, ¬(65 ≤ ch ∧ ch ≤ 90) := by
  unfold get_selected_columns at h
  by_cases hb : containsSub (str "select") (pyLower s) = true
  · rw [if_pos hb] at h
    have hcols : cols
        = collectColumns ((splitComma (pyStrip ((pyLower s).drop
            (findSub (str "select") (pyLower s) + 6)))).map pyStrip) :=
      (Except.ok.injEq _ _ ▸ h).symm
    constructor
    · rw [hcols]
      exact collectColumns_ne_nil (by
        simp [List.map_eq_nil_iff]
        exact splitComma_ne_nil _)
    · intro c hc ch hch
      rw [hcols] at hc
      obtain ⟨e, he, hche⟩ := mem_of_mem_collectColumns hc hch
      rw [List.mem_map] at he
      obtain ⟨e0, he0, he0e⟩ := he
      subst he0e
      have h1 : ch ∈ e0 := mem_of_mem_pyStrip hche
      have h2 : ch ∈ pyStrip ((pyLower s).drop (findSub (str "select") (pyLower s) + 6)) :=
        mem_of_mem_splitComma he0 h1
      have h3 : ch ∈ (pyLower s).drop (findSub (str "select") (pyLower s) + 6) :=
        mem_of_mem_pyStrip h2
      have h4 : ch ∈ pyLower s := List.mem_of_mem_drop h3
      exact not_upper_of_mem_pyLower h4
  · rw [if_neg hb] at h
    exact absurd h (by simp)

/-- C10 (witness): the theorem at the concrete input `SELECT A,B FROM T`,
whose extraction succeeds with the lowercased non-empty list. -/
theorem C10_lowercase_nonempty_witness :
    [str "a", str "b"] ≠ ([] : List Str) ∧
      ∀ c ∈ [str "a", str "b"], ∀ ch ∈ c, ¬(65 ≤ ch ∧ ch ≤ 90) :=
  C10_lowercase_nonempty (str "SELECT A,B FROM T") [str "a", str "b"] rfl

/-- C6 (counterexample): the claimed round-trip does not preserve the
columns exactly.  For `SELECT Id FROM t` (with `Id` containing no space
or comma) the extractor returns `["id"]`, not `["Id"]` — the whole input
is lowercased first; and for a column starting with a tab (also neither
space nor comma) the tab is stripped, so `SELECT \ta FROM t` yields
`["a"]`, not `["\ta"]`. -/
theorem C6_extract_columns_counterexample :
    (get_selected_columns (str "SELECT Id FROM t") = Except.ok [str "id"]) ∧
    (str "id" ≠ str "Id") ∧
    (get_selected_columns (str "SELECT \ta FROM t") = Except.ok [str "a"]) ∧
    (str "a" ≠ str "\ta") :=
  ⟨rfl, by decide, rfl, by decide⟩

/-- C6 (amended): for every SQL string of the shape
`SELECT c1,c2,...,cn FROM t` — each `ci` non-empty, ASCII, containing
neither a comma nor any whitespace character, with arbitrary runs of
spaces around the commas, and an arbitrary tail after `FROM` (table name
and optional `WHERE` clause) — `extract_columns` returns exactly the
ordered list of the lowercased `ci`, stopping at the first
space-containing entry so that the `FROM` token is never treated as a
column. -/
theorem C6_extract_columns_amended (xs : List PaddedCol) (tail : Str)
    (hne : xs ≠ []) (hok : ∀ x ∈ xs, x.OkA) :
    get_selected_columns
        (str "SELECT " ++ List.intercalate [44] (xs.map PaddedCol.render)
          ++ str " FROM " ++ tail)
      = Except.ok (xs.map (fun x => pyLower x.col)) := by
  have hok1 : ∀ z ∈ xs, z.Ok := fun z hz => (hok z hz).1
  cases xs with
  | nil => exact absurd rfl hne
  | cons x t =>
    have hlow : pyLower (str "SELECT "
          ++ List.intercalate [44] ((x :: t).map PaddedCol.render)
          ++ str " FROM " ++ tail)
        = str "select" ++ (32 :: (List.intercalate [44]
            (((x :: t).map (fun z => PaddedCol.mk z.pre (pyLower z.col) z.post)).map
              PaddedCol.render)
            ++ (32 :: 102 :: (str "rom " ++ pyLower tail)))) := by
      rw [pyLower_append, pyLower_append, pyLower_append, pyLower_literal_select,
        pyLower_literal_from, pyLower_intercalate_comma, map_pyLower_renders _ hok1]
      simp
    have hcond : containsSub (str "select")
        (pyLower (str "SELECT "
          ++ List.intercalate [44] ((x :: t).map PaddedCol.render)
          ++ str " FROM " ++ tail)) = true := by
      rw [hlow]
      exact containsSub_of_prefix _ _
    have hmc : (x :: t).map (fun z => PaddedCol.mk z.pre (pyLower z.col) z.post)
        = PaddedCol.mk x.pre (pyLower x.col) x.post
          :: t.map (fun z => PaddedCol.mk z.pre (pyLower z.col) z.post) := rfl
    rw [get_selected_columns_pos hcond, hlow, extract_after_select, hmc,
      pyStrip_select_body _ _ _ (lowered_Ok (hok1 x (List.mem_cons_self _ _)))]
    have hxOk := lowered_Ok (hok1 x (List.mem_cons_self _ _))
    have hallok : ∀ z ∈ (PaddedCol.mk []
          (PaddedCol.mk x.pre (pyLower x.col) x.post).col
          (PaddedCol.mk x.pre (pyLower x.col) x.post).post
        :: t.map (fun z => PaddedCol.mk z.pre (pyLower z.col) z.post)), z.Ok := by
      intro z hz
      rw [List.mem_cons] at hz
      rcases hz with rfl | hz
      · exact ⟨fun c hc => absurd hc (List.not_mem_nil c), hxOk.2.1, hxOk.2.2⟩
      · rw [List.mem_map] at hz
        obtain ⟨w, hw, rfl⟩ := hz
        exact lowered_Ok (hok1 w (List.mem_cons_of_mem _ hw))
    rw [collectColumns_spec _ 102 _ (by decide) (by decide) hallok (by simp)]
    simp only [List.map_cons, List.map_map]
    rfl

/-- C6 (witness): the amended theorem at two concrete padded columns
(`Name ` and ` AGE`) over table `t` with a trailing `WHERE` clause: the
input renders to `SELECT Name , AGE FROM t WHERE x=1` and extraction
returns the lowercased `["name", "age"]`. -/
theorem C6_extract_columns_amended_witness :
    get_selected_columns
        (str "SELECT " ++ List.intercalate [44]
          ([PaddedCol.mk [] (str "Name") [32],
            PaddedCol.mk [32] (str "AGE") []].map PaddedCol.render)
          ++ str " FROM " ++ str "t WHERE x=1")
      = Except.ok ([PaddedCol.mk [] (str "Name") [32],
          PaddedCol.mk [32] (str "AGE") []].map (fun x => pyLower x.col)) :=
  C6_extract_columns_amended
    [PaddedCol.mk [] (str "Name") [32], PaddedCol.mk [32] (str "AGE") []]
    (str "t WHERE x=1") (by simp)
    (by
      intro x hx
      unfold PaddedCol.OkA PaddedCol.Ok spacesOnly colToken
      simp only [List.mem_cons, List.not_mem_nil, or_false] at hx
      rcases hx with rfl | rfl <;> exact (by decide))
